import Mathlib

/-!
Verification of the `pdfstruct`/`pdfform` PDF library: a shallow embedding of
its object model, lexer/parser, stream decoder, cross-reference resolver,
object store, and choice-field mutator, with theorems checking the
natural-language specification against the code.

Bytes are modelled as `Nat` (values 0–255 in all reachable states); Go `int`
is modelled as `Int` (Go arithmetic used by the code does not overflow in any
state we reason about, and `strconv.Atoi`'s 64-bit range check is modelled
explicitly).  Go maps are modelled as association lists; map iteration is
modelled as iteration in list order (a determinization of Go's unspecified
order — none of the properties proved here depend on the order).  Error
message strings are abbreviated; only the success/error/panic distinction is
semantically relevant.  A Go runtime panic is modelled as the distinguished
failure value `Err.panicked`.
-/

set_option maxRecDepth 10000

namespace PdfV

/-- Failure values: ordinary Go errors, `io.EOF`, and runtime panics. -/
inductive Err where
  | msg (s : String)
  | eof
  | panicked
deriving DecidableEq, Repr

/-- PDF object model (`pdfstruct.Object`): the closed set of variants the
library produces.  `real` carries the source text of the numeral, since no
code under verification computes with float values.  Names, strings and hex
strings carry raw bytes. -/
inductive Obj where
  | null
  | bool (b : Bool)
  | int (i : Int)
  | real (raw : List Nat)
  | str (s : List Nat)
  | hex (h : List Nat)
  | name (n : List Nat)
  | arr (a : List Obj)
  | dict (d : List (List Nat × Obj))
  | stream (d : List (List Nat × Obj)) (data : List Nat)
  | ref (number generation : Int)

/-- Association-list model of a Go `Dict` (`map[Name]Object`). -/
abbrev DictL := List (List Nat × Obj)

/-- ASCII bytes of a string literal (all keys and keywords are ASCII). -/
def bs (s : String) : List Nat := s.data.map Char.toNat

/-- Go map lookup `d[key]`: a missing key yields the zero value `nil`,
i.e. the null object — exactly as every `switch d[key].(type)` in the
source treats it. -/
def dictGet (d : DictL) (k : List Nat) : Obj :=
  match d with
  | [] => .null
  | (k', v) :: rest => if k' = k then v else dictGet rest k

/-- Go map membership test `_, ok := d[key]`. -/
def dictHas (d : DictL) (k : List Nat) : Bool :=
  match d with
  | [] => false
  | (k', _) :: rest => k' = k || dictHas rest k

/-- Go map insertion `d[key] = v`: replace the binding if present, else
append. -/
def dictSet (d : DictL) (k : List Nat) (v : Obj) : DictL :=
  match d with
  | [] => [(k, v)]
  | (k', v') :: rest => if k' = k then (k, v) :: rest else (k', v') :: dictSet rest k v

/-- Go map deletion `delete(d, key)` (removes every binding with the key;
association lists built by `dictSet` never hold duplicates, so this agrees
with map semantics on all reachable dictionaries). -/
def dictDel (d : DictL) (k : List Nat) : DictL :=
  d.filter (fun kv => kv.1 ≠ k)

/-- `nonRegularChars` from the source: NUL TAB LF FF CR SP ( ) < > [ ] { } / % -/
def nonRegularChars : List Nat := [0, 9, 10, 12, 13, 32, 40, 41, 60, 62, 91, 93, 123, 125, 47, 37]

/-- `isRegularChar` from the source. -/
def isRegularChar (b : Nat) : Bool := ¬ (b ∈ nonRegularChars)

/-- PDF whitespace bytes (`" \t\r\n\f\x00"`). -/
def wsChars : List Nat := [32, 9, 13, 10, 12, 0]

def isDigit (b : Nat) : Bool := 48 ≤ b && b ≤ 57

/-- `strconv.Atoi`: optional sign, then at least one digit, nothing else;
the 64-bit range check is included.  Returns `none` on any failure. -/
def goAtoi (l : List Nat) : Option Int :=
  let core : List Nat → Option Nat := fun ds =>
    if ds = [] then none
    else if ds.all isDigit then some (ds.foldl (fun acc d => acc * 10 + (d - 48)) 0)
    else none
  match l with
  | 43 :: rest =>
      (core rest).bind fun n => if (n : Int) ≤ 2 ^ 63 - 1 then some (n : Int) else none
  | 45 :: rest =>
      (core rest).bind fun n => if (n : Int) ≤ 2 ^ 63 then some (-(n : Int)) else none
  | _ =>
      (core l).bind fun n => if (n : Int) ≤ 2 ^ 63 - 1 then some (n : Int) else none

/-- Syntax accepted by `strconv.ParseFloat` for the decimal forms the lexer
can feed it (sign, digits, optional fraction, optional exponent; at least
one digit in the mantissa).  Only used to decide error vs. `real`. -/
def goFloatSyntax (l : List Nat) : Bool :=
  let l1 := match l with
    | 43 :: rest => rest
    | 45 :: rest => rest
    | _ => l
  let intPart := l1.takeWhile isDigit
  let l2 := l1.drop intPart.length
  let fracPart := match l2 with
    | 46 :: rest => rest.takeWhile isDigit
    | _ => []
  let l3 := match l2 with
    | 46 :: rest => rest.drop (rest.takeWhile isDigit).length
    | _ => l2
  let mantissaOk := intPart ≠ [] || fracPart ≠ []
  let expOk := match l3 with
    | [] => true
    | 101 :: rest | 69 :: rest =>
        let r2 := match rest with
          | 43 :: r => r
          | 45 :: r => r
          | _ => rest
        r2 ≠ [] && r2.all isDigit
    | _ => false
  let noDotJunk := l3 = [] || l3.headD 0 = 101 || l3.headD 0 = 69
  mantissaOk && expOk && noDotJunk

/-- Two's-complement 64-bit view of a Go `int`. -/
def toU64 (a : Int) : Nat := (a % (2 : Int) ^ 64).toNat

/-- Decode a 64-bit pattern back to a Go `int`. -/
def ofU64 (n : Nat) : Int := if n < 2 ^ 63 then (n : Int) else (n : Int) - 2 ^ 64

/-- Go's `&` on `int` (64-bit two's-complement bitwise and). -/
def i64and (a b : Int) : Int := ofU64 (Nat.land (toU64 a) (toU64 b))

/-! ## Lexer/parser state (`parser` struct and its helpers)

The `more` callback of `readObject` is modelled by `rest`:
`rest = none` models a nil `more` (the `readObjectFrom` mode);
`rest = some r` models the `readObjectAt` closure over the file, which
appends up to 256 bytes per call and fails with `io.EOF` once the file is
exhausted.  A direct call of a nil `more` function is a Go nil-function
panic, while `parser.extend` tests for nil first and returns `io.EOF`. -/

structure PSt where
  buf : List Nat
  rest : Option (List Nat)
  accum : List Nat
  parens : Int
  offset : Int
deriving Repr

/-- Fuel exhaustion marker (the Go state machine loops without bound; every
theorem below either supplies enough fuel or holds for all fuel). -/
def fuelErr : Err := .msg "fuel"

/-- One invocation of the `more` callback at a call site that does not
guard against a nil callback (`stComment`, `stNumObjRef`, `stNumber`). -/
def moreDirect (st : PSt) : Except Err PSt :=
  match st.rest with
  | none => .error .panicked
  | some r =>
      if r = [] then .error .eof
      else .ok { st with buf := st.buf ++ r.take 256, rest := some (r.drop 256) }

/-- The `for len(p.by) < size` loop of `parser.extend`.  The first argument
is a structural bound on the remaining iteration count: every successful
fetch appends at least one byte, so `size` iterations always suffice and
the `gas = 0` fallback is unreachable. -/
def extendAux : Nat → PSt → Nat → Except Err PSt
  | 0, st, size => if st.buf.length ≥ size then .ok st else .error fuelErr
  | gas + 1, st, size =>
      if st.buf.length ≥ size then .ok st
      else
        match st.rest with
        | none => .error .eof
        | some r =>
            if r = [] then .error .eof
            else extendAux gas { st with buf := st.buf ++ r.take 256, rest := some (r.drop 256) } size

/-- `parser.extend(size)`: grow the buffer until it holds `size` bytes. -/
def extendGo (st : PSt) (size : Nat) : Except Err PSt :=
  extendAux size st size

/-- `parser.skip(size)`. -/
def skipGo (st : PSt) (size : Nat) : PSt :=
  { st with buf := st.buf.drop size, offset := st.offset + size }

/-- `bytes.IndexAny(buf, set)`: index of the first byte in `set`. -/
def indexAny (buf : List Nat) (set : List Nat) : Option Nat :=
  buf.findIdx? (fun b => b ∈ set)

/-- `bytes.HasPrefix`. -/
def hasPref (buf pre : List Nat) : Bool := pre.isPrefixOf buf

/-- Matcher for `refObjRE`:
`^([0-9]+)[ \t\r\n\f\x00]+([0-9]+)[ \t\r\n\f\x00]+(R|obj)<nonregular>`.
Returns the two digit groups, whether the keyword was `R`, and the length
of the whole match (including the final delimiter byte). -/
def matchRefObj (buf : List Nat) : Option (List Nat × List Nat × Bool × Nat) :=
  let d1 := buf.takeWhile isDigit
  let b1 := buf.drop d1.length
  let w1 := b1.takeWhile (fun b => b ∈ wsChars)
  let b2 := b1.drop w1.length
  let d2 := b2.takeWhile isDigit
  let b3 := b2.drop d2.length
  let w2 := b3.takeWhile (fun b => b ∈ wsChars)
  let b4 := b3.drop w2.length
  if d1 = [] ∨ w1 = [] ∨ d2 = [] ∨ w2 = [] then none
  else
    match b4 with
    | 82 :: d :: _ =>
        if ¬ isRegularChar d then
          some (d1, d2, true, d1.length + w1.length + d2.length + w2.length + 2)
        else none
    | 111 :: 98 :: 106 :: d :: _ =>
        if ¬ isRegularChar d then
          some (d1, d2, false, d1.length + w1.length + d2.length + w2.length + 4)
        else none
    | _ => none

/-- Matcher for `refObjPrefixRE`:
`^[0-9]+(?:WS+(?:[0-9]+(?:WS+(?:R|o|ob|obj)?)?)?)?$` — is the whole buffer a
prefix of a reference / numbered-object heading? -/
def matchRefObjPre (buf : List Nat) : Bool :=
  let kw : List Nat → Bool := fun l =>
    l = [] || l = [82] || l = [111] || l = [111, 98] || l = [111, 98, 106]
  let d1 := buf.takeWhile isDigit
  let b1 := buf.drop d1.length
  if d1 = [] then false
  else if b1 = [] then true
  else
    let w1 := b1.takeWhile (fun b => b ∈ wsChars)
    let b2 := b1.drop w1.length
    if w1 = [] then false
    else if b2 = [] then true
    else
      let d2 := b2.takeWhile isDigit
      let b3 := b2.drop d2.length
      if d2 = [] then false
      else if b3 = [] then true
      else
        let w2 := b3.takeWhile (fun b => b ∈ wsChars)
        let b4 := b3.drop w2.length
        if w2 = [] then false
        else kw b4

/-- Hex digit value, as in the three-way switches of `stHex`/`stName`. -/
def hexVal (b : Nat) : Option Nat :=
  if 48 ≤ b ∧ b ≤ 57 then some (b - 48)
  else if 65 ≤ b ∧ b ≤ 70 then some (b - 65 + 10)
  else if 97 ≤ b ∧ b ≤ 102 then some (b - 97 + 10)
  else none

/-- `fmt.Errorf("...: %s", err)` wrapping: errors are replaced by the new
message, while a Go panic propagates untouched. -/
def wrapErr (m : String) : Err → Err
  | .panicked => .panicked
  | _ => .msg m

/-- `parser.skipWhitespace`; on error the partially-advanced state is kept,
because `stDict` continues from it. -/
def skipWhitespaceGo : Nat → PSt → PSt × Option Err
  | 0, st => (st, some fuelErr)
  | fuel + 1, st =>
      match extendGo st 1 with
      | .error e => (st, some e)
      | .ok st1 =>
          if st1.buf.headD 0 ∈ wsChars then skipWhitespaceGo fuel (skipGo st1 1)
          else (st1, none)

/-- `strconv.Atoi` with the error discarded, as `stRef` does: the match
groups are all digits, so the only possible failure is a range error, for
which Go's `Atoi` returns the clamped maximum alongside `ErrRange`. -/
def goAtoiIgn (l : List Nat) : Int :=
  match goAtoi l with
  | some v => v
  | none => if l ≠ [] ∧ l.all isDigit then 2 ^ 63 - 1 else 0

/-- `stRef`: build a `Reference` from the regex groups, ignoring the
`strconv.Atoi` errors (`_`). -/
def stRefGo (d1 d2 : List Nat) (len : Nat) (st : PSt) : Except Err (Obj × PSt) :=
  .ok (.ref (goAtoiIgn d1) (goAtoiIgn d2), skipGo st (len - 1))

mutual

/-- `readObject`: run the state machine from `stStart`. -/
def readObjectGo : Nat → PSt → Except Err (Obj × PSt)
  | 0, _ => .error fuelErr
  | fuel + 1, st => stStart fuel st
termination_by structural fuel st => fuel

def stStart : Nat → PSt → Except Err (Obj × PSt)
  | 0, _ => .error fuelErr
  | fuel + 1, st => do
      let st1 ← extendGo st 1
      let b := st1.buf.headD 0
      if b ∈ ([0, 9, 10, 12, 13, 32] : List Nat) then
        stStart fuel (skipGo st1 1)
      else if b = 37 then
        stComment fuel st1
      else if b = 40 then
        stString fuel { skipGo st1 1 with accum := [], parens := 1 }
      else if b = 60 then do
        let st2 ← extendGo st1 2
        if st2.buf.getD 1 0 = 60 then stDict fuel (skipGo st2 2) []
        else stHex fuel { skipGo st2 1 with accum := [] }
      else if b = 62 then
        .error (.msg "unexpected >")
      else if b = 47 then
        stName fuel { skipGo st1 1 with accum := [] }
      else if b = 91 then
        stArray fuel (skipGo st1 1) []
      else if b = 93 then
        .error (.msg "unexpected ]")
      else if b = 45 ∨ b = 43 ∨ isDigit b then
        stNumObjRef fuel st1
      else
        stWord fuel st1
termination_by structural fuel st => fuel

def stComment : Nat → PSt → Except Err (Obj × PSt)
  | 0, _ => .error fuelErr
  | fuel + 1, st =>
      match indexAny st.buf [13, 10] with
      | some idx =>
          if st.buf.getD idx 0 = 10 then stStart fuel (skipGo st (idx + 1))
          else if st.buf.length > idx + 1 then
            if st.buf.getD (idx + 1) 0 = 10 then stStart fuel (skipGo st (idx + 2))
            else stStart fuel (skipGo st (idx + 1))
          else do
            let st1 ← moreDirect st
            stComment fuel st1
      | none => do
          let st1 ← moreDirect st
          stComment fuel st1
termination_by structural fuel st => fuel

def stString : Nat → PSt → Except Err (Obj × PSt)
  | 0, _ => .error fuelErr
  | fuel + 1, st => do
      let st1 ← extendGo st 1
      let b := st1.buf.headD 0
      let st2 := skipGo st1 1
      if b = 40 then
        stString fuel { st2 with parens := st2.parens + 1, accum := st2.accum ++ [b] }
      else if b = 41 then
        if st2.parens - 1 = 0 then .ok (.str st2.accum, { st2 with parens := st2.parens - 1 })
        else stString fuel { st2 with parens := st2.parens - 1, accum := st2.accum ++ [b] }
      else if b = 92 then
        stStringEsc fuel st2
      else if b = 13 then do
        let st3 ← extendGo st2 1
        let st4 := if st3.buf.headD 0 = 10 then skipGo st3 1 else st3
        stString fuel { st4 with accum := st4.accum ++ [10] }
      else
        stString fuel { st2 with accum := st2.accum ++ [b] }
termination_by structural fuel st => fuel

def stStringEsc : Nat → PSt → Except Err (Obj × PSt)
  | 0, _ => .error fuelErr
  | fuel + 1, st => do
      let st1 ← extendGo st 1
      let b := st1.buf.headD 0
      let st2 := skipGo st1 1
      if b = 110 then stString fuel { st2 with accum := st2.accum ++ [10] }
      else if b = 114 then stString fuel { st2 with accum := st2.accum ++ [13] }
      else if b = 116 then stString fuel { st2 with accum := st2.accum ++ [9] }
      else if b = 98 then stString fuel { st2 with accum := st2.accum ++ [8] }
      else if b = 102 then stString fuel { st2 with accum := st2.accum ++ [12] }
      else if b = 13 then do
        let st3 ← extendGo st2 1
        let st4 := if st3.buf.headD 0 = 10 then skipGo st3 1 else st3
        stString fuel st4
      else if b = 10 then stString fuel st2
      else if 48 ≤ b ∧ b ≤ 55 then do
        let st3 ← extendGo st2 2
        let c0 := st3.buf.getD 0 0
        let c1 := st3.buf.getD 1 0
        if 48 ≤ c0 ∧ c0 ≤ 55 then
          if 48 ≤ c1 ∧ c1 ≤ 55 then
            stString fuel { skipGo st3 2 with
              accum := st3.accum ++ [((b - 48) * 64 + (c0 - 48) * 8 + (c1 - 48)) % 256] }
          else
            stString fuel { skipGo st3 1 with accum := st3.accum ++ [(b - 48) * 8 + (c0 - 48)] }
        else
          stString fuel { st3 with accum := st3.accum ++ [b - 48] }
      else stString fuel { st2 with accum := st2.accum ++ [b] }
termination_by structural fuel st => fuel

def stHex : Nat → PSt → Except Err (Obj × PSt)
  | 0, _ => .error fuelErr
  | fuel + 1, st => do
      let st1 ← extendGo st 2
      if st1.buf.headD 0 = 62 then
        .ok (.hex st1.accum, { skipGo st1 1 with accum := [] })
      else
        match hexVal (st1.buf.getD 0 0), hexVal (st1.buf.getD 1 0) with
        | some h, some l =>
            stHex fuel { skipGo st1 2 with accum := st1.accum ++ [h * 16 + l] }
        | _, _ => .error (.msg "invalid character in hex string")
termination_by structural fuel st => fuel

def stName : Nat → PSt → Except Err (Obj × PSt)
  | 0, _ => .error fuelErr
  | fuel + 1, st => do
      let st1 ← extendGo st 1
      let b := st1.buf.headD 0
      if b ∈ nonRegularChars then
        .ok (.name st1.accum, st1)
      else if b = 35 then do
        let st2 ← extendGo st1 3
        match hexVal (st2.buf.getD 1 0), hexVal (st2.buf.getD 2 0) with
        | some h, some l =>
            stName fuel { skipGo st2 3 with accum := st2.accum ++ [h * 16 + l] }
        | _, _ => .error (.msg "invalid character in hex escape in /Name")
      else
        stName fuel { skipGo st1 1 with accum := st1.accum ++ [b] }
termination_by structural fuel st => fuel

def stWord : Nat → PSt → Except Err (Obj × PSt)
  | 0, _ => .error fuelErr
  | _ + 1, st => do
      let st1 ← extendGo st 6
      if hasPref st1.buf (bs "null") ∧ ¬ isRegularChar (st1.buf.getD 4 0) then
        .ok (.null, skipGo st1 4)
      else if hasPref st1.buf (bs "true") ∧ ¬ isRegularChar (st1.buf.getD 4 0) then
        .ok (.bool true, skipGo st1 4)
      else if hasPref st1.buf (bs "false") ∧ ¬ isRegularChar (st1.buf.getD 5 0) then
        .ok (.bool false, skipGo st1 5)
      else
        .error (.msg "unexpected bare word")

def stNumObjRef : Nat → PSt → Except Err (Obj × PSt)
  | 0, _ => .error fuelErr
  | fuel + 1, st =>
      match matchRefObj st.buf with
      | some (d1, d2, isR, len) =>
          if isR then stRefGo d1 d2 len st
          else stNumberedObj fuel d1 d2 len st
      | none =>
          if ¬ matchRefObjPre st.buf then stNumber fuel st
          else do
            let st1 ← moreDirect st
            stNumObjRef fuel st1
termination_by structural fuel st => fuel

def stNumber : Nat → PSt → Except Err (Obj × PSt)
  | 0, _ => .error fuelErr
  | fuel + 1, st =>
      match indexAny st.buf nonRegularChars with
      | none => do
          let st1 ← moreDirect st
          stNumber fuel st1
      | some idx =>
          let tok := st.buf.take idx
          match goAtoi tok with
          | some n => .ok (.int n, skipGo st idx)
          | none =>
              if goFloatSyntax tok then .ok (.real tok, skipGo st idx)
              else .error (.msg "invalid numeric constant")
termination_by structural fuel st => fuel

def stNumberedObj : Nat → List Nat → List Nat → Nat → PSt → Except Err (Obj × PSt)
  | 0, _, _, _, _ => .error fuelErr
  | fuel + 1, _, _, len, st => do
      let st1 := skipGo st (len - 1)
      let (obj, st2) ← readObjectGo fuel { st1 with accum := [], parens := 0 }
      let st2r := { st2 with accum := st1.accum, parens := st1.parens }
      let (st3, werr) := skipWhitespaceGo fuel st2r
      match werr with
      | some e => .error e
      | none => do
          let st4 ← extendGo st3 7
          if hasPref st4.buf (bs "endobj") ∧ ¬ isRegularChar (st4.buf.getD 6 0) then
            .ok (obj, skipGo st4 6)
          else
            .error (.msg "expected endobj after indirect object")
termination_by structural fuel a b c st => fuel

def stArray : Nat → PSt → List Obj → Except Err (Obj × PSt)
  | 0, _, _ => .error fuelErr
  | fuel + 1, st, a => do
      let (st1, werr) := skipWhitespaceGo fuel st
      match werr with
      | some e => .error e
      | none =>
          if st1.buf.headD 0 = 93 then .ok (.arr a, skipGo st1 1)
          else do
            match readObjectGo fuel { st1 with accum := [], parens := 0 } with
            | .ok (obj, st2) =>
                stArray fuel { st2 with accum := st1.accum, parens := st1.parens } (a ++ [obj])
            | .error e => .error (wrapErr "reading array value" e)
termination_by structural fuel st a => fuel

def stDict : Nat → PSt → DictL → Except Err (Obj × PSt)
  | 0, _, _ => .error fuelErr
  | fuel + 1, st, d => do
      let (st1, werr) := skipWhitespaceGo fuel st
      match werr with
      | some e => .error e
      | none => do
          let st2 ← extendGo st1 2
          if st2.buf.getD 0 0 = 62 ∧ st2.buf.getD 1 0 = 62 then
            stDictStream fuel (skipGo st2 2) d
          else
            match readObjectGo fuel { st2 with accum := [], parens := 0 } with
            | .error e => .error (wrapErr "reading Name in dict" e)
            | .ok (kobj, st3) =>
                match kobj with
                | .name key =>
                    match readObjectGo fuel { st3 with accum := [], parens := 0 } with
                    | .error e => .error (wrapErr "reading value in dict" e)
                    | .ok (vobj, st4) =>
                        stDict fuel { st4 with accum := st2.accum, parens := st2.parens }
                          (dictSet d key vobj)
                | _ => .error (.msg "expected /Name in dict")

termination_by structural fuel st d => fuel
/-- The dictionary → stream promotion at the end of `stDict`. -/
def stDictStream : Nat → PSt → DictL → Except Err (Obj × PSt)
  | 0, _, _ => .error fuelErr
  | fuel + 1, st, d =>
      match skipWhitespaceGo fuel st with
      | (stw, some _) => .ok (.dict d, stw)
      | (stw, none) =>
          match extendGo stw 8 with
          | .error _ => .ok (.dict d, stw)
          | .ok st1 =>
              if ¬ hasPref st1.buf (bs "stream") then .ok (.dict d, st1)
              else
                let b6 := st1.buf.getD 6 0
                let b7 := st1.buf.getD 7 0
                if (b6 ≠ 13 ∧ b6 ≠ 10) ∨ (b6 = 13 ∧ b7 ≠ 10) then .ok (.dict d, st1)
                else
                  let st2 := if b6 = 13 then skipGo st1 8 else skipGo st1 7
                  match dictGet d (bs "Length") with
                  | .int size =>
                      (if size + 12 ≤ 0 then (do
                        -- extend(size+12) is a no-op; the slice below panics
                        if size < 0 then .error .panicked
                        else .ok (.stream d [], skipGo st2 0))
                      else do
                        let st3 ← extendGo st2 (size + 12).toNat
                        if size < 0 then .error .panicked
                        else
                          let data := st3.buf.take size.toNat
                          let st4 := skipGo st3 size.toNat
                          let st5 :=
                            if st4.buf.getD 0 0 = 13 ∧ st4.buf.getD 1 0 = 10 then skipGo st4 2
                            else if st4.buf.getD 0 0 = 13 ∨ st4.buf.getD 0 0 = 10 then skipGo st4 1
                            else st4
                          if ¬ hasPref st5.buf (bs "endstream") ∨ isRegularChar (st5.buf.getD 9 0) then
                            .error (.msg "expected endstream at end of stream")
                          else
                            .ok (.stream d data, skipGo st5 9))
                  | _ => .error (.msg "invalid Length for stream")

end

/-! ## Parser entry points -/

/-- `readObjectFrom(by)`: parse from an in-memory slice (`more` is nil).
Returns the object and `newoff`, the offset just past it. -/
def readObjectFrom (by_ : List Nat) (fuel : Nat) : Except Err (Obj × Int) :=
  match readObjectGo fuel { buf := by_, rest := none, accum := [], parens := 0, offset := 0 } with
  | .ok (obj, st) => .ok (obj, st.offset)
  | .error e => .error e

/-- `(p *PDF) readObjectAt(addr)`: parse at a file offset, fetching 256-byte
chunks on demand; parse errors are wrapped with the offset message. -/
def readObjectAt (file : List Nat) (addr : Int) (fuel : Nat) : Except Err Obj :=
  if addr < 0 then .error (.msg "reading object at offset: negative offset")
  else
    match readObjectGo fuel
        { buf := [], rest := some (file.drop addr.toNat), accum := [], parens := 0, offset := addr } with
    | .ok (obj, _) => .ok obj
    | .error e => .error (wrapErr "reading object at offset" e)

/-! ## Writer-side name serialization -/

/-- Uppercase hex digit. -/
def hexDigU (n : Nat) : Nat := if n < 10 then 48 + n else 55 + n

/-- `fmt.Sprintf("#%2X", b)`: width 2, space-padded (not zero-padded), so a
byte below 0x10 prints as `#` + space + one digit. -/
def fmt2X (b : Nat) : List Nat :=
  if b < 16 then [35, 32, hexDigU b]
  else [35, hexDigU (b / 16), hexDigU (b % 16)]

/-- `encodeName`: `/` then each byte literally if regular, else `#%2X`. -/
def encodeName (n : List Nat) : List Nat :=
  47 :: n.flatMap (fun b => if isRegularChar b then [b] else fmt2X b)

/-! ## Filter pipeline (`Stream.Decompress`)

The zlib inflate step is external library code, so it is a parameter
`inflate`; everything else follows `stream.go`.  `DecompressGo` returns the
(dict, data) state alongside the error, because `Decompress` mutates the
stream in place and one caller (`Get`) ignores the returned error. -/

/-- `unpredictPNG`: reverse PNG predictors; filter bytes 0 (None) and
2 (Up) only.  Byte arithmetic wraps mod 256. -/
def unpredictPNG (stream : List Nat) (rowsize : Int) : Except Err (List Nat) :=
  if rowsize + 1 = 0 then .error .panicked   -- len % 0 panics
  else if (stream.length : Int).tmod (rowsize + 1) ≠ 0 then
    .error (.msg "stream length is not a multiple of row length")
  else
    let rows := ((stream.length : Int).tdiv (rowsize + 1)).toNat
    let rn := rowsize.toNat
    let step : Except Err (List Nat) → Nat → Except Err (List Nat) := fun acc row =>
      match acc with
      | .error e => .error e
      | .ok out =>
          let idx := row * (rn + 1)
          let tag := stream.getD idx 0
          let cur := (stream.drop (idx + 1)).take rn
          if tag = 0 then .ok (out ++ cur)
          else if tag = 2 then
            if row = 0 then .ok (out ++ cur)
            else
              let prev := out.drop (out.length - rn)
              .ok (out ++ (cur.zip prev).map (fun p => (p.1 + p.2) % 256))
          else .error (.msg "unexpected PNG filter type")
    (List.range rows).foldl step (.ok [])

/-- `decompressFlateStream`: inflate, then reverse an optional predictor.
Returns the updated data (mutated in place in the source) with the error. -/
def decompressFlateStream (inflate : List Nat → Option (List Nat))
    (data : List Nat) (parms : Option DictL) (rowsize : Int) :
    Except Err Unit × List Nat :=
  match inflate data with
  | none => (.error (.msg "running FlateDecode on stream"), data)
  | some d2 =>
      match parms with
      | none => (.ok (), d2)
      | some dp =>
          match dictGet dp (bs "Predictor") with
          | .null => (.ok (), d2)
          | .int pred =>
              if pred = 1 then (.ok (), d2)
              else if pred = 10 ∨ pred = 11 ∨ pred = 12 ∨ pred = 13 ∨ pred = 14 ∨ pred = 15 then
                if rowsize = 0 then
                  (.error (.msg "rowsize is needed for stream decoding and was not provided"), d2)
                else
                  -- `s.Data, err = unpredictPNG(...)`: on error the
                  -- multiple assignment leaves s.Data nil
                  match unpredictPNG d2 rowsize with
                  | .ok d3 => (.ok (), d3)
                  | .error .panicked => (.error .panicked, d2)
                  | .error e => (.error e, [])
              else (.error (.msg "FlateDecode predictor is not supported"), d2)
          | _ => (.error (.msg "FlateDecode predictor is not an integer"), d2)

/-- Resolve `/Filter` and `/DecodeParms` into the filter list and parameter
list, as the opening switch of `Decompress` does.  `none` means "no filters,
nothing to do"; the inner option is the `parms` slice (nil or populated). -/
def resolveFilters (d : DictL) : Except Err (Option (List (List Nat) × Option (List DictL))) :=
  match dictGet d (bs "Filter") with
  | .null => .ok none
  | .name f =>
      (match dictGet d (bs "DecodeParms") with
      | .null => .ok (some ([f], none))
      | .dict p => .ok (some ([f], some [p]))
      | _ => .error (.msg "stream DecodeParms is not a dictionary"))
  | .arr flist =>
      (match flist.mapM (fun o => match o with | Obj.name n => some n | _ => none) with
      | none => .error (.msg "stream Filter entry is not a Name")
      | some filters =>
          match dictGet d (bs "DecodeParms") with
          | .null => .ok (some (filters, none))
          | .arr pa =>
              if pa.length ≠ flist.length then
                .error (.msg "stream DecodeParms is array with wrong length")
              else
                (match pa.mapM (fun o => match o with | Obj.dict p => some p | _ => none) with
                | none => .error (.msg "stream DecodeParams entry is not a dict")
                | some parms => .ok (some (filters, some parms)))
          | _ => .error (.msg "stream DecodeParams is not an array"))
  | _ => .error (.msg "stream Filter is not a Name or array")

/-- The filter-application loop of `Decompress`. -/
def applyFilters (inflate : List Nat → Option (List Nat)) (rowsize : Int)
    (parms : Option (List DictL)) :
    List (Nat × List Nat) → List Nat → Except Err Unit × List Nat
  | [], data => (.ok (), data)
  | (i, filter) :: restF, data =>
      if filter = bs "FlateDecode" then
        let dp := match parms with
          | none => none
          | some l => some (l.getD i [])
        match decompressFlateStream inflate data dp rowsize with
        | (.ok _, d2) => applyFilters inflate rowsize parms restF d2
        | (.error e, d2) => (.error e, d2)
      else (.error (.msg "stream Filter encoding is not supported"), data)

/-- `(s *Stream) Decompress(rowsize)`: returns the error together with the
resulting (dict, data), since the receiver is mutated in place. -/
def DecompressGo (inflate : List Nat → Option (List Nat)) (d : DictL) (data : List Nat)
    (rowsize : Int) : Except Err Unit × DictL × List Nat :=
  match resolveFilters d with
  | .error e => (.error e, d, data)
  | .ok none => (.ok (), d, data)
  | .ok (some (filters, parms)) =>
      match applyFilters inflate rowsize parms filters.enum data with
      | (.error e, d2) => (.error e, d, d2)
      | (.ok _, d2) => (.ok (), dictDel d (bs "Filter"), d2)

/-! ## Object store -/

/-- Cross-reference slot: one element of the `[]any` table.  `empty` is a
nil interface; `pend` is an `Object` stored directly by `CreateObject`
(handled by the `default` case of `Get`'s type switch). -/
inductive Slot where
  | empty
  | free (next gen : Int)
  | direct (offset gen : Int) (cache : Option Obj)
  | inStream (snum idx : Int) (cache : Option Obj)
  | pend (o : Obj)

/-- `pdfstruct.Reference`. -/
structure RefK where
  number : Int
  generation : Int
deriving DecidableEq, Repr

/-- `pdfstruct.PDF`: the store.  `updates` is the dirty set. -/
structure PDFM where
  file : List Nat
  start : Int
  xref : List Slot
  info : DictL
  catalog : DictL
  updates : List (RefK × Obj)

/-- Dirty-set insertion (`p.updates[ref] = obj`). -/
def updSet (u : List (RefK × Obj)) (r : RefK) (o : Obj) : List (RefK × Obj) :=
  match u with
  | [] => [(r, o)]
  | (r', o') :: rest => if r' = r then (r, o) :: rest else (r', o') :: updSet rest r o

/-- `UpdateObject`: register new content for a reference; nothing else
changes until `Write`. -/
def UpdateObject (p : PDFM) (r : RefK) (o : Obj) : PDFM :=
  { p with updates := updSet p.updates r o }

/-- The `for i := 0; i < idx*2+1; i++` header walk of
`extractObjectFromStream`: repeatedly parse an integer and advance by the
number of bytes consumed. -/
def extractLoop (data : List Nat) (fuel : Nat) : Nat → Int → Except Err Int
  | 0, offset => .ok offset
  | n + 1, offset =>
      if offset < 0 ∨ offset > (data.length : Int) then .error .panicked
      else
        match readObjectFrom (data.drop offset.toNat) fuel with
        | .error e => .error (wrapErr "reading integer in stream header" e)
        | .ok (.int _, delta) => extractLoop data fuel n (offset + delta)
        | .ok _ => .error (.msg "expected integer in stream header")

/-- `extractObjectFromStream(s, idx)`. -/
def extractObjectFromStream (d : DictL) (data : List Nat) (idx : Int) (fuel : Nat) :
    Except Err Obj :=
  match dictGet d (bs "Type") with
  | .name ty =>
      if ty ≠ bs "ObjStm" then .error (.msg "stream is not an object stream")
      else
        match dictGet d (bs "N") with
        | .int n =>
            if idx < 0 ∨ idx ≥ n then .error (.msg "index out of range for object stream")
            else
              match dictGet d (bs "First") with
              | .int first =>
                  (match extractLoop data fuel (2 * idx.toNat + 1) 0 with
                  | .error e => .error e
                  | .ok offset =>
                      if offset < 0 ∨ offset > (data.length : Int) then .error .panicked
                      else
                        match readObjectFrom (data.drop offset.toNat) fuel with
                        | .error e => .error (wrapErr "reading integer in stream header" e)
                        | .ok (.int rel, _) =>
                            let off2 := first + rel
                            if off2 < 0 ∨ off2 > (data.length : Int) then .error .panicked
                            else
                              (match readObjectFrom (data.drop off2.toNat) fuel with
                              | .error e => .error (wrapErr "reading object in stream" e)
                              | .ok (obj, _) => .ok obj)
                        | .ok _ => .error (.msg "expected integer in stream header"))
              | _ => .error (.msg "object stream missing First value")
        | _ => .error (.msg "index out of range for object stream")
  | _ => .error (.msg "stream is not an object stream")

/-- `(p *PDF) Get(r)`, reading only `p.fh` and `p.xref`.  In the source the
type switch binds `xe` to a copy of the slot's struct value, so the
assignments `xe.cache = obj` mutate the copy and the table is unchanged;
`Get` therefore returns no updated state.  The error of `str.Decompress(0)`
is discarded, as in the source. -/
def GetAux (inflate : List Nat → Option (List Nat)) (file : List Nat) (xref : List Slot) :
    Nat → RefK → Except Err Obj
  | 0, _ => .error fuelErr
  | fuel + 1, r =>
      if r.number < 1 ∨ r.number ≥ (xref.length : Int) then
        .error (.msg "object number is out of range for document")
      else
        match xref.getD r.number.toNat .empty with
        | .free _ _ => .error (.msg "object number is on the free list")
        | .direct off gen cache =>
            if gen ≠ r.generation then
              .error (.msg "object number has wrong generation")
            else
              (match cache with
              | some o => .ok o
              | none =>
                  match readObjectAt file off fuel with
                  | .error e => .error (wrapErr "reading object number" e)
                  | .ok obj => .ok obj)
        | .inStream snum idx cache =>
            if r.generation ≠ 0 then
              .error (.msg "object number is in an object stream but has a nonzero generation number")
            else
              (match cache with
              | some o => .ok o
              | none =>
                  match GetAux inflate file xref fuel ⟨snum, 0⟩ with
                  | .error e => .error (wrapErr "reading stream containing object" e)
                  | .ok (.stream sd sdata) =>
                      let dec := DecompressGo inflate sd sdata 0
                      (match extractObjectFromStream dec.2.1 dec.2.2 idx fuel with
                      | .error e => .error (wrapErr "extracting object from stream" e)
                      | .ok obj => .ok obj)
                  | .ok _ => .error (.msg "containing object is not a stream"))
        | .empty => .ok .null
        | .pend o => .ok o

/-- `Get` on the store. -/
def Get (inflate : List Nat → Option (List Nat)) (fuel : Nat) (p : PDFM) (r : RefK) :
    Except Err Obj :=
  GetAux inflate p.file p.xref fuel r

/-- `GetArray`. -/
def GetArray (inflate : List Nat → Option (List Nat)) (fuel : Nat) (p : PDFM) (r : RefK) :
    Except Err (List Obj) :=
  match Get inflate fuel p r with
  | .error e => .error e
  | .ok (.arr a) => .ok a
  | .ok _ => .error (.msg "specified object is not an Array")

/-! ## Choice fields (`pdfform.setChoice`) -/

/-- The option-scanning loop at the end of `setChoice`. -/
def setChoiceCheck (value : List Nat) (opts : List Obj) : Except Err Unit :=
  if opts.any (fun o => match o with | Obj.str s => s == value | _ => false) then .ok ()
  else .error (.msg "value is not valid for field")

/-- `setChoice` after the no-change early return: set `/V`, register the
update, then validate.  `field["Ff"].(int)` is an unchecked type assertion:
a missing or non-integer `/Ff` is a runtime panic. -/
def setChoiceMain (inflate : List Nat → Option (List Nat)) (fuel : Nat) (p : PDFM)
    (fieldref : RefK) (field : DictL) (value : List Nat) : Except Err Unit × PDFM :=
  let field' := dictSet field (bs "V") (.str value)
  let p' := UpdateObject p fieldref (.dict field')
  match dictGet field' (bs "Ff") with
  | .int ff =>
      if i64and ff 0x60000 ≠ 0 then (.ok (), p')
      else
        (match dictGet field' (bs "Opts") with
        | .null => (.error (.msg "field Opts is not specified"), p')
        | .ref n g =>
            (match GetArray inflate fuel p' ⟨n, g⟩ with
            | .ok opts => (setChoiceCheck value opts, p')
            | .error e => (.error (wrapErr "field Opts" e), p'))
        | .arr opts => (setChoiceCheck value opts, p')
        | _ => (.error (.msg "field Opts is not an Array"), p'))
  | _ => (.error .panicked, p')

/-- `setChoice(pdf, fieldref, field, value)`. -/
def setChoice (inflate : List Nat → Option (List Nat)) (fuel : Nat) (p : PDFM)
    (fieldref : RefK) (field : DictL) (value : List Nat) : Except Err Unit × PDFM :=
  let unchanged : Bool := match dictGet field (bs "V") with
    | .str v => v == value
    | _ => false
  if unchanged then (.ok (), p)
  else setChoiceMain inflate fuel p fieldref field value

/-! ## Cross-reference resolver -/

/-- One `%d` of `fmt.Sscanf`: skip spaces, optional sign, digits (64-bit
range-checked); returns the value and the remaining input. -/
def scanInt (l : List Nat) : Option (Int × List Nat) :=
  let l1 := l.dropWhile (fun b => b = 32 ∨ b = 9)
  let core : List Nat → Option (Int × List Nat) := fun l2 =>
    let ds := l2.takeWhile isDigit
    if ds = [] then none
    else (goAtoi ds).map (fun v => (v, l2.drop ds.length))
  match l1 with
  | 45 :: rest =>
      (let ds := rest.takeWhile isDigit
       if ds = [] then none
       else (goAtoi (45 :: ds)).map (fun v => (v, rest.drop ds.length)))
  | 43 :: rest => core rest
  | _ => core l1

/-- `fmt.Sscanf(s, "%d %d", ...)` as used by `readXRefTableSection`. -/
def goSscanf2 (l : List Nat) : Option (Int × Int) :=
  (scanInt l).bind fun p1 => (scanInt p1.2).map fun p2 => (p1.1, p2.1)

/-- The entry loop of `readXRefTableSection`: `count` 20-byte records,
skipping slots that are already filled (never overwriting them). -/
def tableEntryLoop (file : List Nat) (lineLen : Nat) :
    Nat → Int → Int → List Slot → Except Err (Int × List Slot)
  | 0, _, addr, xref => .ok (addr, xref)
  | n + 1, i, addr, xref =>
      if i < 0 ∨ i ≥ (xref.length : Int) then .error .panicked
      else
        match xref.getD i.toNat .empty with
        | .empty =>
            if addr < 0 ∨ addr + (lineLen : Int) > (file.length : Int) then
              .error (.msg "reading cross-reference table entry")
            else
              let ln := (file.drop addr.toNat).take lineLen
              if lineLen < 18 then .error .panicked
              else if ln.getD 17 0 = 110 then
                (match goAtoi (ln.take 10), goAtoi ((ln.drop 11).take 5) with
                | some off, some gen =>
                    tableEntryLoop file lineLen n (i + 1) (addr + 20)
                      (xref.set i.toNat (.direct off gen none))
                | _, _ => .error (.msg "invalid cross-reference table entry"))
              else if ln.getD 17 0 = 102 then
                (match goAtoi (ln.take 10), goAtoi ((ln.drop 11).take 5) with
                | some nx, some gen =>
                    tableEntryLoop file lineLen n (i + 1) (addr + 20)
                      (xref.set i.toNat (.free nx gen))
                | _, _ => .error (.msg "invalid cross-reference table entry"))
              else .error (.msg "invalid cross-reference table entry")
        | _ => tableEntryLoop file lineLen n (i + 1) (addr + 20) xref

/-- `readXRefTableSection(addr, line)`: header `start count`, then the
entry loop; the table is grown (with nil slots) to cover the group. -/
def readXRefTableSection (file : List Nat) (xref : List Slot) (addr0 : Int) (line : List Nat) :
    Except Err (Int × List Slot) :=
  match indexAny line [13, 10] with
  | none => .error (.msg "invalid cross-reference table section header")
  | some idx =>
      match goSscanf2 (line.take idx) with
      | none => .error (.msg "invalid cross-reference table section header")
      | some (start, count) =>
          let addr := if line.getD idx 0 = 13 ∧ idx < line.length - 1 ∧ line.getD (idx + 1) 0 = 10
            then addr0 + (idx : Int) + 2 else addr0 + (idx : Int) + 1
          let xref2 := if (xref.length : Int) < start + count
            then xref ++ List.replicate ((start + count).toNat - xref.length) .empty
            else xref
          tableEntryLoop file line.length count.toNat start addr xref2

/-- `getStreamElement(data, size, def)`: big-endian fixed-width field; a
zero width yields the default; reading past the end of the data is a
slice-bounds panic.  Go `int` accumulation wraps at 64 bits. -/
def getStreamElement (data : List Nat) (size : Int) (def_ : Int) :
    Except Err (List Nat × Int) :=
  if size = 0 then .ok (data, def_)
  else if size < 0 then .ok (data, 0)
  else if data.length < size.toNat then .error .panicked
  else
    .ok (data.drop size.toNat,
      ofU64 ((data.take size.toNat).foldl (fun a b => (a * 256 + b) % 2 ^ 64) 0))

/-- The dictionary walk of `readXRefStream`: collect `/Prev`, `/Index`,
`/Size`, `/W`, skip the stream-mechanics keys, and merge everything else
into `Info` first-wins. -/
def xrsDictLoop : List (List Nat × Obj) → Int → List Int → List Int → DictL →
    Except Err (Int × List Int × List Int × DictL)
  | [], prev, index, w, info => .ok (prev, index, w, info)
  | (key, val) :: rest, prev, index, w, info =>
      if key = bs "Prev" then
        match val with
        | .int v => xrsDictLoop rest v index w info
        | _ => .error (.msg "value of Prev should be integer in xref stream")
      else if key = bs "Index" then
        match val with
        | .arr a =>
            (match a.mapM (fun o => match o with | Obj.int i => some i | _ => none) with
            | none => .error (.msg "value of element of Index should be integer in xref stream")
            | some ix =>
                if ix.length < 2 ∨ ix.length % 2 ≠ 0 then
                  .error (.msg "invalid number of elements in Index in xref stream")
                else xrsDictLoop rest prev ix w info)
        | _ => .error (.msg "value of Index should be array in xref stream")
      else if key = bs "Size" then
        match val with
        | .int v =>
            let index' := if index = [] then [0, v] else index
            let info' := if dictHas info key then info else dictSet info key val
            xrsDictLoop rest prev index' w info'
        | _ => .error (.msg "value of Size should be integer in xref stream")
      else if key = bs "W" then
        match val with
        | .arr a =>
            if a.length ≠ 3 then .error (.msg "value of W should be array of length 3 in xref stream")
            else
              (match a.mapM (fun o => match o with | Obj.int i => some i | _ => none) with
              | none => .error (.msg "value of element of W should be integer in xref stream")
              | some ws => xrsDictLoop rest prev index (w ++ ws) info)
        | _ => .error (.msg "value of W should be array in xref stream")
      else if key ∈ [bs "Type", bs "Length", bs "Filter", bs "DecodeParms", bs "F",
          bs "FFilter", bs "FDecodeParms", bs "DL"] then
        xrsDictLoop rest prev index w info
      else
        let info' := if dictHas info key then info else dictSet info key val
        xrsDictLoop rest prev index w info'

/-- The inner merge loop of `readXRefStream` over one `Index` group:
decode each entry and store it only if the slot is still nil. -/
def xrsMergeInner (w0 w1 w2 : Int) :
    Nat → Int → List Nat → List Slot → Except Err (List Nat × List Slot)
  | 0, _, data, xref => .ok (data, xref)
  | n + 1, i, data, xref => do
      let (data1, xtype) ← getStreamElement data w0 1
      let mkSlot : Except Err (List Nat × Slot) :=
        if xtype = 0 then do
          let (data2, nx) ← getStreamElement data1 w1 0
          let (data3, gen) ← getStreamElement data2 w2 0
          .ok (data3, .free nx gen)
        else if xtype = 1 then do
          let (data2, off) ← getStreamElement data1 w1 0
          let (data3, gen) ← getStreamElement data2 w2 0
          .ok (data3, .direct off gen none)
        else if xtype = 2 then do
          let (data2, sn) ← getStreamElement data1 w1 0
          let (data3, ix) ← getStreamElement data2 w2 0
          .ok (data3, .inStream sn ix none)
        else .error (.msg "invalid type in xref stream")
      match mkSlot with
      | .error e => .error e
      | .ok (data3, slot) =>
          if i < 0 ∨ i ≥ (xref.length : Int) then .error .panicked
          else
            match xref.getD i.toNat .empty with
            | .empty => xrsMergeInner w0 w1 w2 n (i + 1) data3 (xref.set i.toNat slot)
            | _ => xrsMergeInner w0 w1 w2 n (i + 1) data3 xref

/-- The outer merge loop of `readXRefStream` over the `Index` pairs. -/
def xrsMergeOuter (w0 w1 w2 : Int) :
    List Int → List Nat → List Slot → Except Err (List Nat × List Slot)
  | [], data, xref => .ok (data, xref)
  | s :: c :: restIx, data, xref => do
      let (data2, xref2) ← xrsMergeInner w0 w1 w2 c.toNat s data xref
      xrsMergeOuter w0 w1 w2 restIx data2 xref2
  | [_], _, _ => .error .panicked

/-- `readXRefStream(addr)`: parse the stream object, read its dictionary,
decompress with row size `W[0]+W[1]+W[2]`, grow the table, merge. -/
def readXRefStream (inflate : List Nat → Option (List Nat)) (file : List Nat)
    (xref : List Slot) (info : DictL) (addr : Int) (fuel : Nat) :
    Except Err (Int × List Slot × DictL) :=
  match readObjectAt file addr fuel with
  | .error e => .error (wrapErr "reading xref stream" e)
  | .ok (.stream d data) =>
      (match dictGet d (bs "Type") with
      | .name t =>
          if t ≠ bs "XRef" then .error (.msg "expected Type XRef in xref stream")
          else
            (match xrsDictLoop d 0 [] [] info with
            | .error e => .error e
            | .ok (prev, index, w, info') =>
                if index = [] then .error (.msg "missing both Index and Size in xref stream")
                else if w = [] then .error (.msg "missing W in xref stream")
                else
                  let w0 := w.getD 0 0
                  let w1 := w.getD 1 0
                  let w2 := w.getD 2 0
                  match DecompressGo inflate d data (w0 + w1 + w2) with
                  | (.error e, _, _) => .error (wrapErr "decompressing xref stream" e)
                  | (.ok _, _, data2) =>
                      let mx := index.getD (index.length - 2) 0 + index.getD (index.length - 1) 0
                      let xref2 := if (xref.length : Int) < mx
                        then xref ++ List.replicate (mx.toNat - xref.length) .empty
                        else xref
                      match xrsMergeOuter w0 w1 w2 index data2 xref2 with
                      | .error e => .error e
                      | .ok (dataF, xref3) =>
                          if dataF ≠ [] then
                            .error (.msg "extra data left in cross-reference stream")
                          else .ok (prev, xref3, info'))
      | _ => .error (.msg "expected Type XRef in xref stream"))
  | .ok _ => .error (.msg "expected xref stream")

/-- One cross-reference section, as dispatched by `readXRefSection`:
either a classic table subsection or an xref stream. -/
inductive XSection where
  | table (addr : Int) (line : List Nat)
  | xstr (addr : Int)

/-- Apply one section's merge to the table (and `Info`). -/
def applySection (inflate : List Nat → Option (List Nat)) (file : List Nat) (fuel : Nat)
    (xref : List Slot) (info : DictL) : XSection → Except Err (List Slot × DictL)
  | .table addr line =>
      (match readXRefTableSection file xref addr line with
      | .error e => .error e
      | .ok r => .ok (r.2, info))
  | .xstr addr =>
      (match readXRefStream inflate file xref info addr fuel with
      | .error e => .error e
      | .ok r => .ok (r.2.1, r.2.2))

/-- Apply a chain of sections in read order (newest first, as `readXRef`
walks `Prev` links). -/
def applySections (inflate : List Nat → Option (List Nat)) (file : List Nat) (fuel : Nat) :
    List XSection → List Slot → DictL → Except Err (List Slot × DictL)
  | [], xref, info => .ok (xref, info)
  | s :: rest, xref, info =>
      match applySection inflate file fuel xref info s with
      | .error e => .error e
      | .ok (x2, i2) => applySections inflate file fuel rest x2 i2

/-! ## Concrete fixtures used by several theorems -/

/-- An inflate that succeeds and returns the input unchanged (a legitimate
zlib payload may inflate to arbitrary bytes; this instance is enough for
concrete runs). -/
def inflId : List Nat → Option (List Nat) := fun l => some l

/-- An inflate that always fails (models a corrupt Flate payload). -/
def inflFail : List Nat → Option (List Nat) := fun _ => none

/-- An empty store. -/
def pdf0 : PDFM := ⟨[], 0, [], [], [], []⟩

/-- A store whose file holds the single direct object `1 0 obj 42 endobj`,
with xref slot 1 pointing at it (uncached). -/
def pdf1 : PDFM := ⟨bs "1 0 obj 42 endobj\n", 0, [.empty, .direct 0 0 none], [], [], []⟩

/-- Object-stream dictionary: `/Type /ObjStm /N 4 /First 18`, marked as
Flate-encoded. -/
def objStmDict : DictL :=
  [(bs "Type", .name (bs "ObjStm")), (bs "N", .int 4), (bs "First", .int 18),
   (bs "Filter", .name (bs "FlateDecode"))]

/-- Object-stream payload: header pairs `(11,0) (5,3) (7,6) (12,9)` and the
four objects `33 34 35 37`; index 3 (object #12) is the integer 37. -/
def objStmData : List Nat := bs "11 0 5 3 7 6 12 9 33 34 35 37 q"

/-- A store where object #12 lives at index 3 of object stream #9. -/
def pdf6 : PDFM :=
  ⟨[], 0,
   [.empty, .empty, .empty, .empty, .empty, .empty, .empty, .empty, .empty,
    .pend (.stream objStmDict objStmData), .empty, .empty, .inStream 9 3 none],
   [], [], []⟩

/-! ## Claim theorems -/

/-- C7 counterexample: the source text `<</A 1/A 2>>` contains a dictionary
with the key `/A` twice, yet the parser returns a value (no parse error is
reported), refuting the claim that duplicate keys are a parse error. -/
theorem C7_counterexample :
    ∃ r, readObjectFrom (bs "<</A 1/A 2>> ") 99 = .ok r :=
  ⟨_, rfl⟩

/-- C7 amended: duplicate dictionary keys are not a parse error; the parser
accepts the dictionary and the later binding overwrites the earlier one
(last wins), here `/A ↦ 2`. -/
theorem C7_theorem :
    readObjectFrom (bs "<</A 1/A 2>> ") 99 = .ok (.dict [(bs "A", .int 2)], 13) :=
  rfl

/-- C10: on a `/Ch` field with no `/Ff` entry whose current `/V` differs
from the requested value, `setChoice` evaluates the unchecked type
assertion `field["Ff"].(int)` on a nil value and panics instead of
returning an error: the function is not total over such inputs. -/
theorem C10_theorem :
    (setChoice inflId 9 pdf0 ⟨1, 0⟩ [(bs "FT", .name (bs "Ch"))] (bs "x")).1
      = .error .panicked :=
  rfl

/-- C1 counterexample: after `UpdateObject({1,0}, 99)` on a store whose
slot 1 is `Direct`, `Get({1,0})` still returns the object parsed from the
file (42), not the updated object (99): the dirty set is not consulted. -/
theorem C1_counterexample :
    Get inflId 99 (UpdateObject pdf1 ⟨1, 0⟩ (.int 99)) ⟨1, 0⟩ = .ok (.int 42) ∧
      Obj.int 42 ≠ Obj.int 99 := by
  exact ⟨rfl, by simp⟩

/-- C1 amended: `Get` never consults the dirty set: for every store, every
registered update and every reference, `Get` after `UpdateObject` returns
exactly what it returned before; updates become visible only through
`Write` (objects added by `CreateObject` are visible because they are
stored in the xref table itself, not via the dirty set). -/
theorem C1_theorem (inflate : List Nat → Option (List Nat)) (fuel : Nat)
    (p : PDFM) (r : RefK) (o : Obj) (ref : RefK) :
    Get inflate fuel (UpdateObject p r o) ref = Get inflate fuel p ref :=
  rfl

/-- C4: caching is ineffective.  A first `Get({1,0})` on the uncached
`Direct` slot succeeds by parsing the file, but the slot's cache is written
through a copy of the slot value (`xe := p.xref[...]` binds a copy in the
type switch), so the store is left unchanged and a second `Get` re-reads
and re-parses the file — shown here by the second conjunct, where the
re-read observes a mutated file, which a cache hit could not. -/
theorem C4_theorem :
    Get inflId 99 pdf1 ⟨1, 0⟩ = .ok (.int 42) ∧
      Get inflId 99 { pdf1 with file := bs "1 0 obj 43 endobj\n" } ⟨1, 0⟩ = .ok (.int 43) :=
  ⟨rfl, rfl⟩

/-- C6: the error of `str.Decompress(0)` inside `Get` is discarded.  With a
corrupt Flate payload (inflate fails), `Decompress` reports an error, yet
`Get` proceeds on the still-compressed bytes and returns a value — the
decompression failure never reaches the caller. -/
theorem C6_theorem :
    (DecompressGo inflFail objStmDict objStmData 0).1
        = .error (.msg "running FlateDecode on stream") ∧
      Get inflFail 99 pdf6 ⟨12, 0⟩ = .ok (.int 37) :=
  ⟨rfl, rfl⟩

/-- C9: `Get` rejects out-of-range object numbers, free-list slots,
`Direct` slots with a generation mismatch, and in-object-stream slots with
a nonzero generation; and in the store where object #12 sits at index 3 of
object stream #9, `Get({12,0})` returns its parsed form (the integer 37)
while `Get({12,1})` errors on the nonzero generation. -/
theorem C9_theorem (inflate : List Nat → Option (List Nat)) (fuel : Nat) (p : PDFM)
    (r : RefK) (hf : 0 < fuel) :
    ((r.number < 1 ∨ (p.xref.length : Int) ≤ r.number) →
        Get inflate fuel p r = .error (.msg "object number is out of range for document")) ∧
    (∀ nx g, 1 ≤ r.number → r.number < (p.xref.length : Int) →
        p.xref.getD r.number.toNat .empty = .free nx g →
        Get inflate fuel p r = .error (.msg "object number is on the free list")) ∧
    (∀ off g c, 1 ≤ r.number → r.number < (p.xref.length : Int) →
        p.xref.getD r.number.toNat .empty = .direct off g c → g ≠ r.generation →
        Get inflate fuel p r = .error (.msg "object number has wrong generation")) ∧
    (∀ sn ix c, 1 ≤ r.number → r.number < (p.xref.length : Int) →
        p.xref.getD r.number.toNat .empty = .inStream sn ix c → r.generation ≠ 0 →
        Get inflate fuel p r
          = .error (.msg "object number is in an object stream but has a nonzero generation number")) ∧
    Get inflId 99 pdf6 ⟨12, 0⟩ = .ok (.int 37) ∧
    Get inflId 99 pdf6 ⟨12, 1⟩
      = .error (.msg "object number is in an object stream but has a nonzero generation number") := by
  obtain ⟨f, rfl⟩ : ∃ f, fuel = f + 1 := ⟨fuel - 1, by omega⟩
  refine ⟨?_, ?_, ?_, ?_, rfl, rfl⟩
  · intro h
    show GetAux inflate p.file p.xref (f + 1) r = _
    rw [GetAux, if_pos (by omega)]
  · intro nx g h1 h2 hslot
    show GetAux inflate p.file p.xref (f + 1) r = _
    rw [GetAux, if_neg (by omega), hslot]
  · intro off g c h1 h2 hslot hg
    show GetAux inflate p.file p.xref (f + 1) r = _
    rw [GetAux, if_neg (by omega), hslot]
    simp only [if_pos hg]
  · intro sn ix c h1 h2 hslot hg
    show GetAux inflate p.file p.xref (f + 1) r = _
    rw [GetAux, if_neg (by omega), hslot]
    simp only [if_pos hg]

/-- C9 witness: the theorem applied at a concrete out-of-range reference. -/
theorem C9_witness :
    Get inflId 1 pdf1 ⟨99, 0⟩ = .error (.msg "object number is out of range for document") :=
  (C9_theorem inflId 1 pdf1 ⟨99, 0⟩ (by decide)).1 (by decide)

/-- Looking up a deleted key yields null. -/
theorem dictGet_dictDel (d : DictL) (k : List Nat) : dictGet (dictDel d k) k = .null := by
  induction d with
  | nil => rfl
  | cons kv rest ih =>
      by_cases hk : kv.1 = k
      · simpa [dictDel, List.filter_cons, hk] using ih
      · simpa [dictDel, List.filter_cons, hk, dictGet] using ih

/-- If `resolveFilters` reports "nothing to do", the `/Filter` lookup was
null. -/
theorem resolveFilters_ok_none (d : DictL) (h : resolveFilters d = .ok none) :
    dictGet d (bs "Filter") = .null := by
  unfold resolveFilters at h
  cases hf : dictGet d (bs "Filter") <;> rw [hf] at h
  all_goals dsimp only at h
  all_goals first
    | rfl
    | (exfalso; (repeat' split at h) <;> simp_all)

/-- C8 amended: if `Decompress` succeeds then looking up `/Filter` in the
resulting dictionary yields null (when a decode ran, the key was deleted; a
pre-existing `/Filter` entry whose value is the null object is left in
place), and a second `Decompress` succeeds and leaves both the payload and
the dictionary unchanged. -/
theorem C8_theorem (inflate : List Nat → Option (List Nat)) (d : DictL) (data : List Nat)
    (r : Int) (d' : DictL) (data' : List Nat)
    (h : DecompressGo inflate d data r = (.ok (), d', data')) :
    dictGet d' (bs "Filter") = .null ∧
      DecompressGo inflate d' data' r = (.ok (), d', data') := by
  unfold DecompressGo at h
  rcases hr : resolveFilters d with e | fp
  · rw [hr] at h; exact absurd h (by simp)
  · rcases fp with _ | ⟨filters, parms⟩
    · rw [hr] at h
      dsimp only at h
      obtain ⟨rfl, rfl⟩ : d = d' ∧ data = data' := by
        simpa [Prod.ext_iff] using h
      refine ⟨resolveFilters_ok_none d hr, ?_⟩
      unfold DecompressGo
      rw [hr]
    · rw [hr] at h
      dsimp only at h
      rcases hap : applyFilters inflate r parms filters.enum data with ⟨res, d2⟩
      rcases res with e | u
      · rw [hap] at h; exact absurd h (by simp)
      · rw [hap] at h
        obtain ⟨rfl, rfl⟩ : dictDel d (bs "Filter") = d' ∧ d2 = data' := by
          simpa [Prod.ext_iff] using h
        refine ⟨dictGet_dictDel d (bs "Filter"), ?_⟩
        unfold DecompressGo
        have hnone : resolveFilters (dictDel d (bs "Filter")) = .ok none := by
          unfold resolveFilters
          rw [dictGet_dictDel]
        rw [hnone]

/-- C8 witness: the theorem at a stream with no `/Filter` at all. -/
theorem C8_witness :
    dictGet ([] : DictL) (bs "Filter") = .null ∧
      DecompressGo inflId ([] : DictL) [] 0 = (.ok (), [], []) :=
  C8_theorem inflId [] [] 0 [] [] rfl

/-- Setting one key leaves lookups of other keys unchanged. -/
theorem dictGet_dictSet_ne (d : DictL) (k k' : List Nat) (v : Obj) (hk : k ≠ k') :
    dictGet (dictSet d k v) k' = dictGet d k' := by
  induction d with
  | nil => simp [dictSet, dictGet, hk]
  | cons kv rest ih =>
      by_cases h1 : kv.1 = k
      · simp [dictSet, h1, dictGet, hk]
      · simp [dictSet, h1, dictGet]
        split <;> simp_all

/-- C2 counterexample: a non-editable `/Ch` field (`Ff = 0`) carrying a
`/Opt` array that contains the requested value.  The claim predicts the set
succeeds; `setChoice` instead returns an error, because it looks the option
list up under the key `Opts`, which is absent. -/
theorem C2_counterexample :
    (setChoice inflId 9 pdf0 ⟨1, 0⟩
        [(bs "FT", .name (bs "Ch")), (bs "Ff", .int 0), (bs "Opt", .arr [.str (bs "x")]),
         (bs "T", .str (bs "f"))] (bs "x")).1
      = .error (.msg "field Opts is not specified") :=
  rfl

/-- C2 amended: for a non-editable choice field whose current `/V` differs
from the requested value, `setChoice` sets `/V = value` and registers the
updated field dictionary; the option check consults the key `Opts` (not
`/Opt`): when `Opts` is absent the call errors, and when `Opts` is an array
the call succeeds iff the array contains the value as a plain string
(display pairs are not matched). -/
theorem C2_theorem (inflate : List Nat → Option (List Nat)) (fuel : Nat) (p : PDFM)
    (fieldref : RefK) (field : DictL) (value : List Nat) (ff : Int)
    (hv : dictGet field (bs "V") ≠ .str value)
    (hff : dictGet field (bs "Ff") = .int ff)
    (hed : i64and ff 0x60000 = 0) :
    (setChoice inflate fuel p fieldref field value).2
        = UpdateObject p fieldref (.dict (dictSet field (bs "V") (.str value))) ∧
    (dictGet field (bs "Opts") = .null →
        (setChoice inflate fuel p fieldref field value).1
          = .error (.msg "field Opts is not specified")) ∧
    (∀ opts, dictGet field (bs "Opts") = .arr opts →
        ((setChoice inflate fuel p fieldref field value).1 = .ok ()
          ↔ Obj.str value ∈ opts)) := by
  have hbsV : bs "V" ≠ bs "Opts" := by decide
  have hbsV2 : bs "V" ≠ bs "Ff" := by decide
  have hunch : (match dictGet field (bs "V") with
      | Obj.str v => v == value
      | _ => false) = false := by
    cases hV : dictGet field (bs "V") <;> simp only []
    case str v =>
      rw [hV] at hv
      simp only [beq_eq_false_iff_ne, ne_eq]
      intro hc; exact hv (by rw [hc])
  have hff' : dictGet (dictSet field (bs "V") (.str value)) (bs "Ff") = .int ff := by
    rw [dictGet_dictSet_ne _ _ _ _ hbsV2, hff]
  have hOpts' : dictGet (dictSet field (bs "V") (.str value)) (bs "Opts")
      = dictGet field (bs "Opts") :=
    dictGet_dictSet_ne _ _ _ _ hbsV
  unfold setChoice
  rw [hunch]
  simp only [Bool.false_eq_true, if_false]
  unfold setChoiceMain
  dsimp only
  rw [hff', hOpts']
  simp only [hed, ne_eq, not_true_eq_false, if_false, reduceIte]
  refine ⟨?_, ?_, ?_⟩
  · cases hO : dictGet field (bs "Opts") <;> simp only []
    case ref n g => cases GetArray inflate fuel _ _ <;> rfl
  · intro hO; rw [hO]
  · intro opts hO; rw [hO]
    simp only []
    unfold setChoiceCheck
    constructor
    · intro hok
      by_cases hany : opts.any (fun o => match o with
          | Obj.str s => s == value
          | _ => false) = true
      · rcases List.any_eq_true.mp hany with ⟨o, ho, hpred⟩
        cases o <;> simp_all
      · rw [if_neg (by simpa using hany)] at hok
        exact absurd hok (by simp)
    · intro hmem
      rw [if_pos]
      exact List.any_eq_true.mpr ⟨.str value, hmem, by simp⟩

/-- C8 counterexample: a stream whose dictionary carries an explicit
`/Filter null` entry.  `Decompress` succeeds via the `case nil` branch
without deleting anything, so the `/Filter` key is still present in the
dictionary afterwards, refuting "the /Filter key is absent". -/
theorem C8_counterexample :
    DecompressGo inflId [(bs "Filter", Obj.null)] [] 0
        = (.ok (), [(bs "Filter", Obj.null)], []) ∧
      dictHas [(bs "Filter", Obj.null)] (bs "Filter") = true :=
  ⟨rfl, rfl⟩

/-- C2 witness field: `Ff = 0`, `Opts = ["x"]`. -/
def fieldW : DictL := [(bs "Ff", .int 0), (bs "Opts", .arr [.str (bs "x")])]

/-- C2 witness: the amended theorem at a concrete field where the value is
among the `Opts` strings, hence the set succeeds. -/
theorem C2_witness : (setChoice inflId 3 pdf0 ⟨1, 0⟩ fieldW (bs "x")).1 = .ok () := by
  have h := C2_theorem inflId 3 pdf0 ⟨1, 0⟩ fieldW (bs "x") 0
    (by intro hx
        rw [show dictGet fieldW (bs "V") = Obj.null from rfl] at hx
        exact Obj.noConfusion hx)
    rfl rfl
  exact (h.2.2 [.str (bs "x")] rfl).mpr (List.Mem.head _)

/-! ## Name round-trip (C3) -/

/-- One component of a wire-encoded name: a literal regular byte or a
`#HH` escape. -/
inductive NameTok where
  | lit (b : Nat)
  | esc (b : Nat)

/-- The wire bytes of one component; escapes use uppercase hex. -/
def tokWire : NameTok → List Nat
  | .lit b => [b]
  | .esc b => [35, hexDigU (b / 16), hexDigU (b % 16)]

/-- The byte a component denotes. -/
def tokByte : NameTok → Nat
  | .lit b => b
  | .esc b => b

/-- Canonical-form condition: literals are regular bytes other than `#`;
escapes denote non-regular bytes in `[0x10, 0x100)` (so `#%2X` prints two
hex digits with no space padding). -/
def tokOk : NameTok → Bool
  | .lit b => isRegularChar b && b ≠ 35
  | .esc b => !isRegularChar b && 16 ≤ b && b < 256

/-- `hexVal` inverts `hexDigU` on hex-digit values. -/
theorem hexVal_hexDigU (d : Nat) (hd : d < 16) : hexVal (hexDigU d) = some d := by
  unfold hexVal hexDigU
  by_cases h : d < 10
  · rw [if_pos h, if_pos (by omega)]
    congr 1
    omega
  · rw [if_neg h, if_neg (by omega), if_pos (by omega)]
    congr 1
    omega

/-- Running `stName` over the wire form of a canonical token list appends
the denoted bytes to the accumulator and stops at the delimiter. -/
theorem stName_run (toks : List NameTok) (hok : toks.all tokOk = true)
    (fuel : Nat) (hf : toks.length + 1 ≤ fuel)
    (acc : List Nat) (par : Int) (off : Int) (rest2 : List Nat) :
    stName fuel ⟨toks.flatMap tokWire ++ 32 :: rest2, none, acc, par, off⟩
      = .ok (.name (acc ++ toks.map tokByte),
          ⟨32 :: rest2, none, acc ++ toks.map tokByte, par,
           off + ((toks.flatMap tokWire).length : Int)⟩) := by
  induction toks generalizing fuel acc off with
  | nil =>
      obtain ⟨f, rfl⟩ : ∃ f, fuel = f + 1 := ⟨fuel - 1, by omega⟩
      rw [show ([] : List NameTok).flatMap tokWire ++ 32 :: rest2 = 32 :: rest2 from rfl]
      rw [stName]
      rw [show extendGo ⟨32 :: rest2, none, acc, par, off⟩ 1
          = .ok ⟨32 :: rest2, none, acc, par, off⟩ from by
        simp [extendGo, extendAux]]
      simp only [bind, Except.bind]
      rw [show (⟨32 :: rest2, none, acc, par, off⟩ : PSt).buf.headD 0 = 32 from rfl]
      rw [if_pos (by decide : (32 : Nat) ∈ nonRegularChars)]
      simp
  | cons t rest ih =>
      obtain ⟨f, rfl⟩ : ∃ f, fuel = f + 1 := ⟨fuel - 1, by omega⟩
      have hok1 : tokOk t = true := by
        have := List.all_eq_true.mp hok t (List.Mem.head _)
        exact this
      have hokr : rest.all tokOk = true :=
        List.all_eq_true.mpr fun x hx => List.all_eq_true.mp hok x (List.Mem.tail _ hx)
      have hfr : rest.length + 1 ≤ f := by
        simp only [List.length_cons] at hf
        omega
      cases t with
      | lit b =>
          have hreg : ¬ (b ∈ nonRegularChars) := by
            have h1 : isRegularChar b = true := by
              simp only [tokOk, Bool.and_eq_true] at hok1
              exact hok1.1
            simpa [isRegularChar] using h1
          have hne : ¬ (b = 35) := by
            simp only [tokOk, Bool.and_eq_true] at hok1
            simpa using hok1.2
          rw [show (NameTok.lit b :: rest).flatMap tokWire
              = b :: rest.flatMap tokWire from rfl]
          rw [stName]
          rw [show extendGo ⟨b :: rest.flatMap tokWire ++ 32 :: rest2, none, acc, par, off⟩ 1
              = .ok ⟨b :: rest.flatMap tokWire ++ 32 :: rest2, none, acc, par, off⟩ from by
            simp [extendGo, extendAux]]
          simp only [bind, Except.bind]
          rw [show (⟨b :: rest.flatMap tokWire ++ 32 :: rest2, none, acc, par, off⟩ : PSt).buf.headD 0
              = b from rfl]
          rw [if_neg hreg, if_neg hne]
          dsimp only [skipGo]
          rw [show (⟨b :: rest.flatMap tokWire ++ 32 :: rest2, none, acc, par, off⟩ : PSt).buf.drop 1
              = rest.flatMap tokWire ++ 32 :: rest2 from rfl]
          rw [show (off + (1 : Nat) : Int) = off + 1 from by push_cast; ring]
          rw [ih hokr f hfr (acc ++ [b]) (off + 1)]
          simp [tokByte, List.append_assoc]
          push_cast
          ring
      | esc b =>
          have hb : isRegularChar b = false ∧ 16 ≤ b ∧ b < 256 := by
            simp only [tokOk, Bool.and_eq_true, Bool.not_eq_true'] at hok1
            exact ⟨hok1.1.1, by simpa using hok1.1.2, by simpa using hok1.2⟩
          have hdiv : b / 16 < 16 := by omega
          have hmod : b % 16 < 16 := by omega
          rw [show (NameTok.esc b :: rest).flatMap tokWire
              = 35 :: hexDigU (b / 16) :: hexDigU (b % 16) :: rest.flatMap tokWire from rfl]
          rw [stName]
          rw [show extendGo ⟨35 :: hexDigU (b / 16) :: hexDigU (b % 16) :: rest.flatMap tokWire
                ++ 32 :: rest2, none, acc, par, off⟩ 1
              = .ok ⟨35 :: hexDigU (b / 16) :: hexDigU (b % 16) :: rest.flatMap tokWire
                ++ 32 :: rest2, none, acc, par, off⟩ from by
            simp [extendGo, extendAux]]
          simp only [bind, Except.bind]
          rw [show (⟨35 :: hexDigU (b / 16) :: hexDigU (b % 16) :: rest.flatMap tokWire
                ++ 32 :: rest2, none, acc, par, off⟩ : PSt).buf.headD 0 = 35 from rfl]
          rw [if_neg (by decide : ¬ ((35 : Nat) ∈ nonRegularChars)), if_pos rfl]
          rw [show extendGo ⟨35 :: hexDigU (b / 16) :: hexDigU (b % 16) :: rest.flatMap tokWire
                ++ 32 :: rest2, none, acc, par, off⟩ 3
              = .ok ⟨35 :: hexDigU (b / 16) :: hexDigU (b % 16) :: rest.flatMap tokWire
                ++ 32 :: rest2, none, acc, par, off⟩ from by
            simp [extendGo, extendAux]]
          simp only [bind, Except.bind]
          rw [show ((⟨35 :: hexDigU (b / 16) :: hexDigU (b % 16) :: rest.flatMap tokWire
                ++ 32 :: rest2, none, acc, par, off⟩ : PSt).buf.getD 1 0)
              = hexDigU (b / 16) from rfl]
          rw [show ((⟨35 :: hexDigU (b / 16) :: hexDigU (b % 16) :: rest.flatMap tokWire
                ++ 32 :: rest2, none, acc, par, off⟩ : PSt).buf.getD 2 0)
              = hexDigU (b % 16) from rfl]
          rw [hexVal_hexDigU _ hdiv, hexVal_hexDigU _ hmod]
          dsimp only [skipGo]
          rw [show (⟨35 :: hexDigU (b / 16) :: hexDigU (b % 16) :: rest.flatMap tokWire
                ++ 32 :: rest2, none, acc, par, off⟩ : PSt).buf.drop 3
              = rest.flatMap tokWire ++ 32 :: rest2 from rfl]
          rw [show b / 16 * 16 + b % 16 = b from by omega]
          rw [show (off + (3 : Nat) : Int) = off + 3 from by push_cast; ring]
          rw [ih hokr f hfr (acc ++ [b]) (off + 3)]
          simp [tokByte, List.append_assoc]
          push_cast
          ring

/-- Re-encoding the denoted bytes of a canonical token list reproduces the
wire bytes. -/
theorem encodeName_toks (toks : List NameTok) (hok : toks.all tokOk = true) :
    encodeName (toks.map tokByte) = 47 :: toks.flatMap tokWire := by
  unfold encodeName
  congr 1
  induction toks with
  | nil => rfl
  | cons t rest ih =>
      have hok1 : tokOk t = true := List.all_eq_true.mp hok t (List.Mem.head _)
      have hokr : rest.all tokOk = true :=
        List.all_eq_true.mpr fun x hx => List.all_eq_true.mp hok x (List.Mem.tail _ hx)
      cases t with
      | lit b =>
          have h1 : isRegularChar b = true := by
            simp only [tokOk, Bool.and_eq_true] at hok1
            exact hok1.1
          simp [tokWire, tokByte, h1, ih hokr]
      | esc b =>
          have h1 : isRegularChar b = false ∧ 16 ≤ b := by
            simp only [tokOk, Bool.and_eq_true, Bool.not_eq_true'] at hok1
            exact ⟨hok1.1.1, by simpa using hok1.1.2⟩
          have h16 := h1.2
          have h2 : ¬ b < 16 := by omega
          rw [show List.map tokByte (NameTok.esc b :: rest) = b :: List.map tokByte rest from rfl]
          rw [show (NameTok.esc b :: rest).flatMap tokWire
              = tokWire (.esc b) ++ rest.flatMap tokWire from rfl]
          rw [show ((b :: List.map tokByte rest).flatMap fun c =>
                if isRegularChar c then [c] else fmt2X c)
              = (if isRegularChar b then [b] else fmt2X b)
                ++ ((List.map tokByte rest).flatMap fun c =>
                      if isRegularChar c then [c] else fmt2X c) from rfl]
          rw [ih hokr]
          congr 1
          simp [h1.1, fmt2X, h2, tokWire]

/-- C3 counterexample: the wire name `/#0A` (an escaped non-regular byte
below 0x10) parses to the name byte 0x0A, but re-encoding that name with
`encodeName` produces `/# A` — the `fmt.Sprintf("#%2X", b)` escape is
space-padded, not zero-padded — so the original bytes are not reproduced. -/
theorem C3_counterexample :
    readObjectFrom (bs "/#0A ") 30 = .ok (.name [10], 4) ∧
      encodeName [10] ≠ bs "/#0A" := by
  exact ⟨rfl, by decide⟩

/-- C3 amended: parse-then-encode is the identity on canonical wire names:
slash, then components that are either literal regular bytes other than
`#`, or uppercase `#HH` escapes of non-regular bytes in `[0x10, 0x100)`.
Parsing such a name (followed by a delimiter) yields exactly the denoted
bytes and consumes exactly the name; re-encoding yields the original wire
bytes.  (Outside this canonical set the round-trip fails: lowercase
escapes are re-encoded uppercase, escapes of regular bytes become
literals, and bytes below 0x10 are re-encoded with a space-padded escape
— see the counterexample.) -/
theorem C3_theorem (toks : List NameTok) (hok : toks.all tokOk = true)
    (fuel : Nat) (hf : toks.length + 3 ≤ fuel) :
    readObjectFrom ((47 :: toks.flatMap tokWire) ++ [32]) fuel
        = .ok (.name (toks.map tokByte), ((47 :: toks.flatMap tokWire).length : Int)) ∧
      encodeName (toks.map tokByte) = 47 :: toks.flatMap tokWire := by
  refine ⟨?_, encodeName_toks toks hok⟩
  obtain ⟨f1, rfl⟩ : ∃ f1, fuel = f1 + 2 := ⟨fuel - 2, by omega⟩
  unfold readObjectFrom readObjectGo
  rw [stStart]
  rw [show extendGo ⟨(47 :: toks.flatMap tokWire) ++ [32], none, [], 0, 0⟩ 1
      = .ok ⟨(47 :: toks.flatMap tokWire) ++ [32], none, [], 0, 0⟩ from by
    simp [extendGo, extendAux]]
  simp only [bind, Except.bind]
  rw [show ((⟨(47 :: toks.flatMap tokWire) ++ [32], none, [], 0, 0⟩ : PSt).buf.headD 0)
      = 47 from rfl]
  rw [if_neg (by decide), if_neg (by decide), if_neg (by decide), if_neg (by decide),
      if_neg (by decide), if_pos rfl]
  rw [show ({ skipGo ⟨(47 :: toks.flatMap tokWire) ++ [32], none, [], 0, 0⟩ 1
        with accum := ([] : List Nat) } : PSt)
      = ⟨toks.flatMap tokWire ++ 32 :: [], none, [], 0, 1⟩ from rfl]
  rw [stName_run toks hok f1 (by omega) [] 0 1 []]
  dsimp only
  simp only [Except.ok.injEq, Prod.mk.injEq, List.length_cons]
  refine ⟨rfl, ?_⟩
  push_cast
  ring

/-- C3 witness: the theorem at the concrete canonical name `/A#28`
(`A` literal, `(` escaped), parsed with fuel 30. -/
theorem C3_witness :
    readObjectFrom (bs "/A#28 ") 30 = .ok (.name [65, 40], 5) ∧
      encodeName [65, 40] = bs "/A#28" :=
  C3_theorem [.lit 65, .esc 40] (by rfl) 30 (by decide)

/-! ## Cross-reference merge never overwrites a filled slot (C5) -/

/-- `b` keeps every filled (non-nil) slot of `a` at the same index. -/
@[reducible] def preservesSlots (a b : List Slot) : Prop :=
  ∀ (i : Nat) (s : Slot), a[i]? = some s → s ≠ Slot.empty → b[i]? = some s

theorem preservesSlots_refl (a : List Slot) : preservesSlots a a :=
  fun _ _ h _ => h

theorem preservesSlots_trans {a b c : List Slot}
    (h1 : preservesSlots a b) (h2 : preservesSlots b c) : preservesSlots a c := by
  intro i s hi hs
  exact h2 i s (h1 i s hi hs) hs

/-- Growing the table with nil slots preserves every existing slot. -/
theorem preservesSlots_grow (a : List Slot) (k : Nat) :
    preservesSlots a (a ++ List.replicate k .empty) := by
  intro i s hi _
  have hlen : i < a.length := by
    by_contra hc
    rw [List.getElem?_eq_none (by omega)] at hi
    exact Option.noConfusion hi
  rw [List.getElem?_append, if_pos hlen]
  exact hi

/-- Growth guarded by the `len < max` test preserves every filled slot. -/
theorem preservesSlots_growIf (xref : List Slot) (c : Prop) [Decidable c] (k : Nat) :
    preservesSlots xref (if c then xref ++ List.replicate k .empty else xref) := by
  split
  · exact preservesSlots_grow xref k
  · exact preservesSlots_refl xref

/-- Writing into a slot that is currently nil preserves every filled
slot. -/
theorem preservesSlots_set (a : List Slot) (j : Nat) (slot : Slot)
    (hj : a.getD j .empty = .empty) : preservesSlots a (a.set j slot) := by
  intro i s hi hs
  by_cases hij : j = i
  · subst hij
    rw [List.getD_eq_getElem?_getD, hi] at hj
    simp only [Option.getD_some] at hj
    exact absurd hj hs
  · rw [List.getElem?_set_ne hij]
    exact hi

/-- The entry loop of a classic table section never overwrites a filled
slot. -/
theorem tableEntryLoop_pres (file : List Nat) (lineLen : Nat) :
    ∀ n i addr xref out, tableEntryLoop file lineLen n i addr xref = .ok out →
      preservesSlots xref out.2 := by
  intro n
  induction n with
  | zero =>
      intro i addr xref out h
      cases h
      exact preservesSlots_refl xref
  | succ m ih =>
      intro i addr xref out h
      unfold tableEntryLoop at h
      dsimp only at h
      repeat' split at h
      all_goals first
        | exact absurd h (by simp)
        | exact preservesSlots_trans
            (preservesSlots_set xref _ _ (by assumption)) (ih _ _ _ _ h)
        | exact ih _ _ _ _ h

/-- `readXRefTableSection` never overwrites a filled slot. -/
theorem readXRefTableSection_pres (file : List Nat) (xref : List Slot) (addr0 : Int)
    (line : List Nat) (out : Int × List Slot)
    (h : readXRefTableSection file xref addr0 line = .ok out) :
    preservesSlots xref out.2 := by
  unfold readXRefTableSection at h
  repeat' first
    | split at h
    | dsimp only at h
  all_goals first
    | exact absurd h (by simp)
    | exact preservesSlots_trans (preservesSlots_grow _ _)
        (tableEntryLoop_pres _ _ _ _ _ _ _ h)
    | exact preservesSlots_trans (preservesSlots_growIf _ _ _)
        (tableEntryLoop_pres _ _ _ _ _ _ _ h)
    | exact tableEntryLoop_pres _ _ _ _ _ _ _ h

/-- The inner merge loop of an xref stream never overwrites a filled
slot. -/
theorem xrsMergeInner_pres (w0 w1 w2 : Int) :
    ∀ n i data xref out, xrsMergeInner w0 w1 w2 n i data xref = .ok out →
      preservesSlots xref out.2 := by
  intro n
  induction n with
  | zero =>
      intro i data xref out h
      cases h
      exact preservesSlots_refl xref
  | succ m ih =>
      intro i data xref out h
      unfold xrsMergeInner at h
      simp only [bind, Except.bind] at h
      try dsimp only at h
      repeat' split at h
      all_goals first
        | exact absurd h (by simp)
        | exact preservesSlots_trans
            (preservesSlots_set xref _ _ (by assumption)) (ih _ _ _ _ h)
        | exact ih _ _ _ _ h

/-- The outer merge loop over the `Index` pairs never overwrites a filled
slot. -/
theorem xrsMergeOuter_pres (w0 w1 w2 : Int) :
    ∀ ix data xref out, xrsMergeOuter w0 w1 w2 ix data xref = .ok out →
      preservesSlots xref out.2
  | [], data, xref, out, h => by
      cases h
      exact preservesSlots_refl xref
  | [x], data, xref, out, h => by
      exact absurd h (by simp [xrsMergeOuter])
  | s :: c :: rest, data, xref, out, h => by
      unfold xrsMergeOuter at h
      simp only [bind, Except.bind] at h
      rcases hin : xrsMergeInner w0 w1 w2 c.toNat s data xref with e | ⟨data2, xref2⟩
      · rw [hin] at h
        exact absurd h (by simp)
      · rw [hin] at h
        exact preservesSlots_trans (xrsMergeInner_pres w0 w1 w2 _ _ _ _ _ hin)
          (xrsMergeOuter_pres w0 w1 w2 rest data2 xref2 out h)

/-- `readXRefStream` never overwrites a filled slot. -/
theorem readXRefStream_pres (inflate : List Nat → Option (List Nat)) (file : List Nat)
    (xref : List Slot) (info : DictL) (addr : Int) (fuel : Nat)
    (out : Int × List Slot × DictL)
    (h : readXRefStream inflate file xref info addr fuel = .ok out) :
    preservesSlots xref out.2.1 := by
  unfold readXRefStream at h
  repeat' first
    | split at h
    | dsimp only at h
  all_goals try exact Except.noConfusion h
  all_goals injection h with h2
  all_goals subst h2
  all_goals first
    | exact preservesSlots_trans (preservesSlots_grow _ _)
        (xrsMergeOuter_pres _ _ _ _ _ _ _ (by assumption))
    | exact preservesSlots_trans (preservesSlots_growIf _ _ _)
        (xrsMergeOuter_pres _ _ _ _ _ _ _ (by assumption))

/-- One section merge never overwrites a filled slot. -/
theorem applySection_pres (inflate : List Nat → Option (List Nat)) (file : List Nat)
    (fuel : Nat) (xref : List Slot) (info : DictL) (sec : XSection)
    (out : List Slot × DictL)
    (h : applySection inflate file fuel xref info sec = .ok out) :
    preservesSlots xref out.1 := by
  cases sec with
  | table addr line =>
      unfold applySection at h
      dsimp only at h
      rcases ht : readXRefTableSection file xref addr line with e | r
      · rw [ht] at h
        exact absurd h (by simp)
      · rw [ht] at h
        injection h with h2
        subst h2
        exact readXRefTableSection_pres _ _ _ _ _ ht
  | xstr addr =>
      unfold applySection at h
      dsimp only at h
      rcases ht : readXRefStream inflate file xref info addr fuel with e | r
      · rw [ht] at h
        exact absurd h (by simp)
      · rw [ht] at h
        injection h with h2
        subst h2
        exact readXRefStream_pres _ _ _ _ _ _ _ ht

/-- C5: once a slot of the merged table has been filled by an earlier-read
(newer) section, no later-read (older) section — classic table or xref
stream — overwrites it: running any chain of sections preserves every
filled slot.  Consequently the final entry for an object number is the one
supplied by the first section in read order (the one reachable first from
`startxref` via `Prev`) that fills it: apply the theorem to the state just
after that section. -/
theorem C5_theorem (inflate : List Nat → Option (List Nat)) (file : List Nat) (fuel : Nat) :
    ∀ secs xref0 info0 out,
      applySections inflate file fuel secs xref0 info0 = .ok out →
      preservesSlots xref0 out.1
  | [], xref0, _, out, h => by
      cases h
      exact preservesSlots_refl xref0
  | sec :: rest, xref0, info0, out, h => by
      unfold applySections at h
      rcases hs : applySection inflate file fuel xref0 info0 sec with e | ⟨x2, i2⟩
      · rw [hs] at h
        exact absurd h (by simp)
      · rw [hs] at h
        dsimp only at h
        exact preservesSlots_trans (applySection_pres _ _ _ _ _ _ _ hs)
          (C5_theorem inflate file fuel rest x2 i2 out h)

/-- C5 witness fixture: a one-entry classic table section (`1 1`, then one
20-byte `n` record) at offset 0. -/
def fileT : List Nat := bs "1 1\n0000000005 00000 n \n"

/-- The 20 bytes the caller read at the section header. -/
def lineT : List Nat := fileT.take 20

/-- C5 witness: slot 1 is already filled, the section supplies an entry
for object 1, and after the merge the slot is unchanged. -/
theorem C5_witness :
    (applySections inflId fileT 9 [.table 0 lineT] [.empty, .direct 99 0 none] []
        = .ok ([.empty, .direct 99 0 none], [])) ∧
      ([.empty, .direct 99 0 none] : List Slot)[1]? = some (.direct 99 0 none) := by
  refine ⟨rfl, ?_⟩
  exact C5_theorem inflId fileT 9 [.table 0 lineT] [.empty, .direct 99 0 none] []
    ([.empty, .direct 99 0 none], []) rfl 1 (.direct 99 0 none) rfl
    (fun hc => Slot.noConfusion hc)

end PdfV
